import Mathlib

/-!
Shallow embedding of the VAT semi-supervised-learning trainer
(`src/semilearn/algorithms/vat/vat.py` and `src/train.py`) together with
theorems settling the specification claims about it.

Tensors handed to `VAT._l2_normalize` are modelled as numpy ndarrays: a shape
list together with a total indexing function on index lists (entries outside
the shape are irrelevant junk carried around uniformly).  Machine floats are
modelled as real numbers.
-/

/-- Model of a numpy ndarray as passed to `VAT._l2_normalize`: a shape and an
indexing function from index lists to the stored reals. -/
structure NDarray where
  shape : List Nat
  data : List Nat → ℝ

/-- The additive guard `1e-16` in the denominators of `VAT._l2_normalize`. -/
noncomputable def eps16 : ℝ := 1 / 10 ^ 16

/-- Per-example L2 norm of a rank-4 array over its non-batch axes:
`np.sqrt(np.sum(d ** 2, axis=(1, 2, 3)))` evaluated at batch index `i`. -/
noncomputable def exNorm4 (d : NDarray) (i : Nat) : ℝ :=
  Real.sqrt (∑ j ∈ Finset.range (d.shape.getD 1 0), ∑ k ∈ Finset.range (d.shape.getD 2 0),
    ∑ l ∈ Finset.range (d.shape.getD 3 0), d.data [i, j, k, l] ^ 2)

/-- Per-example L2 norm of a rank-3 array over its non-batch axes:
`np.sqrt(np.sum(d ** 2, axis=(1, 2)))` evaluated at batch index `i`. -/
noncomputable def exNorm3 (d : NDarray) (i : Nat) : ℝ :=
  Real.sqrt (∑ j ∈ Finset.range (d.shape.getD 1 0), ∑ k ∈ Finset.range (d.shape.getD 2 0),
    d.data [i, j, k] ^ 2)

/-- Embedding of `VAT._l2_normalize` (vat.py lines 116-123).  A rank-4 array is
divided example-wise by `exNorm4 + 1e-16`, a rank-3 array by `exNorm3 + 1e-16`,
and an array of any other rank falls through both branches and is returned
unchanged. -/
noncomputable def l2_normalize (d : NDarray) : NDarray :=
  if d.shape.length = 4 then
    ⟨d.shape, fun idx => d.data idx / (exNorm4 d (idx.headD 0) + eps16)⟩
  else if d.shape.length = 3 then
    ⟨d.shape, fun idx => d.data idx / (exNorm3 d (idx.headD 0) + eps16)⟩
  else d

/-- Concrete rank-2 array (batch of two 2-vectors, all entries 5). -/
def exRank2 : NDarray := ⟨[2, 2], fun _ => 5⟩

/-- Concrete rank-5 array (all entries 2). -/
def exRank5 : NDarray := ⟨[1, 1, 1, 1, 1], fun _ => 2⟩

/-- Concrete rank-4 array with a single entry 3. -/
def exRank4 : NDarray := ⟨[1, 1, 1, 1], fun _ => 3⟩

/-- Row softmax along the class dimension, modelling `torch.nn.functional.softmax(x, dim=1)`
applied to one row of logits. -/
noncomputable def softmaxRow {C : Nat} (x : Fin C → ℝ) (i : Fin C) : ℝ :=
  Real.exp (x i) / ∑ j, Real.exp (x j)

/-- Row log-softmax along the class dimension, modelling
`torch.nn.functional.log_softmax(x, dim=1)` applied to one row of logits. -/
noncomputable def logSoftmaxRow {C : Nat} (x : Fin C → ℝ) (i : Fin C) : ℝ :=
  x i - Real.log (∑ j, Real.exp (x j))

/-- Embedding of `VAT.kl_div_with_logit` (vat.py lines 125-134):
`(q * logq).sum(dim=1).mean(dim=0) - (q * logp).sum(dim=1).mean(dim=0)` where
`q = softmax(q_logit)`, `logq = log_softmax(q_logit)`, `logp = log_softmax(p_logit)`. -/
noncomputable def kl_div_with_logit {B C : Nat} (q_logit p_logit : Fin B → Fin C → ℝ) : ℝ :=
  (∑ b, ∑ i, softmaxRow (q_logit b) i * logSoftmaxRow (q_logit b) i) / B -
    (∑ b, ∑ i, softmaxRow (q_logit b) i * logSoftmaxRow (p_logit b) i) / B

/-- Embedding of `VAT.entropy_loss` (vat.py lines 136-138):
`-(softmax(ul_y) * log_softmax(ul_y)).sum(dim=1).mean(dim=0)`. -/
noncomputable def entropy_loss {B C : Nat} (ul_y : Fin B → Fin C → ℝ) : ℝ :=
  -((∑ b, ∑ i, softmaxRow (ul_y b) i * logSoftmaxRow (ul_y b) i) / B)

/-- Concrete logit batch (one row, two classes): both logits zero. -/
noncomputable def qEx : Fin 1 → Fin 2 → ℝ := fun _ => ![0, 0]

/-- Concrete logit batch (one row, two classes): logits `(log 3, 0)`. -/
noncomputable def pEx : Fin 1 → Fin 2 → ℝ := fun _ => ![Real.log 3, 0]

/-- Model of `np.clip(x, a_min, a_max)`: `np.minimum(a_max, np.maximum(x, a_min))`. -/
noncomputable def npClip (x lo hi : ℝ) : ℝ := min (max x lo) hi

/-- The unsupervised warmup coefficient computed in `VAT.train_step` (vat.py line 65):
`np.clip(self.it / (self.unsup_warm_up * self.num_train_iter), a_min=0.0, a_max=1.0)`. -/
noncomputable def unsupWarmup (it : Nat) (unsup_warm_up : ℝ) (num_train_iter : Nat) : ℝ :=
  npClip ((it : ℝ) / (unsup_warm_up * (num_train_iter : ℝ))) 0 1

/-- Modelled from the spec: the formula `clip(current_iteration / (warmup_fraction *
total_iterations), 0, 1)` given in the specification for the warmup coefficient, read
as clamping into `[0, 1]` from above first. -/
noncomputable def clipSpec (x : ℝ) : ℝ := max (min x 1) 0

/-- The scalar diagnostics dictionary returned by `VAT.train_step`
(keys `train/sup_loss`, `train/unsup_loss`, `train/loss_entmin`, `train/total_loss`). -/
structure TBDict where
  sup_loss : ℝ
  unsup_loss : ℝ
  loss_entmin : ℝ
  total_loss : ℝ

/-- Inputs of one `VAT.train_step` call.  The differentiable model and the
cross-entropy collaborator (`semilearn.algorithms.utils.ce_loss`, outside the
analysed sources) are abstracted: `logits_x_lb` is the labeled forward pass
`self.model(x_lb)`, `ce_loss_mean` computes `ce_loss(logits, y, reduction='mean')`,
`ul_y` is the unlabeled forward pass, and `vat_loss_val` the value returned by
`self.vat_loss` (whose internals need the autodiff engine). -/
structure TrainStepEnv (Bl Bu C : Nat) where
  logits_x_lb : Fin Bl → Fin C → ℝ
  y_lb : Fin Bl → Fin C
  ce_loss_mean : (Fin Bl → Fin C → ℝ) → (Fin Bl → Fin C) → ℝ
  ul_y : Fin Bu → Fin C → ℝ
  vat_loss_val : ℝ
  lambda_u : ℝ
  lambda_ent : ℝ
  unsup_warm_up : ℝ
  it : Nat
  num_train_iter : Nat

/-- Embedding of the loss computation of `VAT.train_step` (vat.py lines 46-77):
supervised cross-entropy, VAT unsupervised loss, entropy minimization term,
warmup coefficient, and the total objective
`sup_loss + lambda_u * unsup_loss * unsup_warmup + lambda_ent * loss_entmin`. -/
noncomputable def train_step {Bl Bu C : Nat} (env : TrainStepEnv Bl Bu C) : TBDict :=
  let sup_loss := env.ce_loss_mean env.logits_x_lb env.y_lb
  let unsup_loss := env.vat_loss_val
  let loss_entmin := entropy_loss env.ul_y
  let uw := unsupWarmup env.it env.unsup_warm_up env.num_train_iter
  let total_loss := sup_loss + env.lambda_u * unsup_loss * uw + env.lambda_ent * loss_entmin
  ⟨sup_loss, unsup_loss, loss_entmin, total_loss⟩

/-- State threaded through the power-iteration loop of `VAT.vat_loss`: the
current perturbation tensor `d` and the model's accumulated parameter-gradient
buffer. -/
structure VatSearchState (D P : Type) where
  d : D
  paramGrad : P

/-- The external autodiff capability used by `VAT.vat_loss` (the spec treats the
automatic-differentiation engine as a capability the core calls into, not part of
the core): for a probe perturbation value `d0`, `dGrad d0` is the gradient of
`delta_kl = kl_div_with_logit(ul_y.detach(), model(ul_x + d0))` with respect to
`d0`, and `pGrad d0` is the model-parameter gradient the same `backward()` call
accumulates as a side effect. -/
structure AutogradOracle (D P : Type) where
  dGrad : D → D
  pGrad : D → P

/-- One round of the `for i in range(num_iters)` loop of `VAT.vat_loss`
(vat.py lines 86-100): `d` is rescaled by `xi * _l2_normalize` (abstracted as
`xiNormalize`), `delta_kl.backward()` accumulates gradients into `d.grad` and the
parameter buffers, `d` is replaced by `d.grad.data.clone()`, and
`model.zero_grad()` clears the parameter buffers. -/
def vatIter {D P : Type} [Add P] [Zero P] (xiNormalize : D → D) (O : AutogradOracle D P)
    (s : VatSearchState D P) : VatSearchState D P :=
  let dProbe := xiNormalize s.d
  let afterBackward : VatSearchState D P :=
    ⟨O.dGrad dProbe, s.paramGrad + O.pGrad dProbe⟩
  ⟨afterBackward.d, 0⟩

/-- The whole power-iteration loop of `VAT.vat_loss`, run for `num_iters` rounds. -/
def vatLoop {D P : Type} [Add P] [Zero P] (xiNormalize : D → D) (O : AutogradOracle D P) :
    Nat → VatSearchState D P → VatSearchState D P
  | 0, s => s
  | n + 1, s => vatLoop xiNormalize O n (vatIter xiNormalize O s)

/-- The command-line arguments of `train.py` that the `main` entry point reads
before spawning workers. -/
structure TrainArgs where
  num_train_iter : Nat
  epoch : Nat
  save_dir : String
  save_name : String
  overwrite : Bool
  resume : Bool
  load_path : Option String
  gpu : Option Nat
  multiprocessing_distributed : Bool

/-- The exceptions `main` (train.py lines 24-73) can raise before any worker
starts: the divisibility assertion, the already-existing save path, resume
without a load path, and identical save/load paths without overwrite. -/
inductive MainError
  | iterNotDivisible (nIter nEpoch : Nat)
  | alreadyExistingModel (path : String)
  | resumeNeedsLoadPath
  | sameSaveLoadPath

/-- The externally visible resource effects of `main`: recursively deleting the
save path (`shutil.rmtree`), spawning one process per device
(`mp.spawn(main_worker, nprocs=ngpus_per_node, ...)`), or running `main_worker`
in-process — the latter two are where device/process resources get allocated. -/
inductive MainEffect
  | rmtreeSavePath (path : String)
  | spawnWorkers (nprocs : Nat)
  | runWorker (gpu : Option Nat)

/-- `os.path.join(args.save_dir, args.save_name)` as computed by `main`. -/
def savePath (args : TrainArgs) : String := args.save_dir ++ "/" ++ args.save_name

/-- Embedding of `main` (train.py lines 24-73) as the ordered list of effects it
performs plus the exception it raises, if any.  `savePathExists` models
`os.path.exists(save_path)` at entry and `ngpusPerNode` models
`torch.cuda.device_count()`.  The elided statements (seed and GPU warnings,
`world_size` bookkeeping) perform no resource effect and raise nothing. -/
def mainRun (args : TrainArgs) (savePathExists : Bool) (ngpusPerNode : Nat) :
    List MainEffect × Option MainError :=
  if args.num_train_iter % args.epoch ≠ 0 then
    ([], some (.iterNotDivisible args.num_train_iter args.epoch))
  else
    let delEffs : List MainEffect :=
      if savePathExists && args.overwrite && !args.resume then
        [.rmtreeSavePath (savePath args)]
      else []
    if savePathExists && !args.overwrite then
      (delEffs, some (.alreadyExistingModel (savePath args)))
    else if args.resume && args.load_path.isNone then
      (delEffs, some .resumeNeedsLoadPath)
    else if args.resume && args.load_path == some (savePath args) && !args.overwrite then
      (delEffs, some .sameSaveLoadPath)
    else if args.multiprocessing_distributed then
      (delEffs ++ [.spawnWorkers ngpusPerNode], none)
    else
      (delEffs ++ [.runWorker args.gpu], none)

/-- The defaults declared by the argument parser of `train.py` (lines 246-359)
for the fields `mainRun` reads; in particular `--overwrite` is declared with
`action='store_true', default=True`. -/
def trainDefaultArgs : TrainArgs :=
  { num_train_iter := 2 ^ 20
    epoch := 1024
    save_dir := "./saved_models"
    save_name := "fixmatch"
    overwrite := true
    resume := false
    load_path := none
    gpu := none
    multiprocessing_distributed := false }

/-- Log records emitted by the resume block of `main_worker`. -/
inductive WorkerLog
  | failToResume (path : String)
  | resumePathMissing (path : String)

/-- Result of the resume block: the (possibly cleared) resume flag, the
iteration counter training starts from, and the log records emitted. -/
structure ResumeOutcome where
  resume : Bool
  startIter : Nat
  logs : List WorkerLog

/-- Embedding of the checkpoint-resume block of `main_worker` (train.py lines
210-218).  `loadResult` models the `model.load_model(args.load_path)` call: `ok`
carries the loaded iteration counter, `error` carries the message of whatever
exception the load raised; the bare `except:` catches every exception, so the
block always returns instead of aborting the process. -/
def resumeBlock (resume loadPathExists : Bool) (loadPath : String)
    (loadResult : Except String Nat) : ResumeOutcome :=
  if resume && loadPathExists then
    match loadResult with
    | .ok it => ⟨resume, it, []⟩
    | .error _ => ⟨false, 0, [.failToResume loadPath]⟩
  else
    ⟨resume, 0, [.resumePathMissing loadPath]⟩

/-- The `batch_size`/`num_workers` pair handed to one `get_data_loader` call. -/
structure LoaderArgs where
  batch_size : Nat
  num_workers : Nat

/-- The per-process loader configuration `main_worker` builds. -/
structure WorkerLoaders where
  batchSizePerProc : Nat
  train_lb : LoaderArgs
  train_ulb : LoaderArgs
  evalLdr : LoaderArgs

/-- Embedding of the device setup and loader construction of `main_worker`
(train.py lines 139-204): in the distributed branch with a specific device index
(`args.distributed and args.gpu is not None`), `args.batch_size` is replaced by
`int(args.batch_size / ngpus_per_node)`; the loaders then receive
`args.num_workers` (labeled), `2 * args.num_workers` (unlabeled, with batch size
`args.batch_size * args.uratio`), and `args.num_workers` (evaluation). -/
def workerLoaderSetup (batch_size num_workers ulb_over_lb eval_batch_size : Nat)
    (distributed : Bool) (gpu : Option Nat) (ngpusPerNode : Nat) : WorkerLoaders :=
  let bs := if distributed && gpu.isSome then batch_size / ngpusPerNode else batch_size
  { batchSizePerProc := bs
    train_lb := ⟨bs, num_workers⟩
    train_ulb := ⟨bs * ulb_over_lb, 2 * num_workers⟩
    evalLdr := ⟨eval_batch_size, num_workers⟩ }

/-- Concrete autograd oracle on integer scalars, for witnesses. -/
def oracleEx : AutogradOracle Int Int := ⟨fun d => d + 1, fun d => d⟩

/-- Concrete power-iteration start state, for witnesses. -/
def stateEx : VatSearchState Int Int := ⟨5, 7⟩

/-- A rank-2 array falls through both shape branches of `_l2_normalize` and is
returned unchanged: no error is raised and no normalization happens, refuting
the fail-loudly reading. -/
theorem l2_normalize_rank2_counterexample :
    l2_normalize exRank2 = exRank2 ∧ exRank2.shape.length = 2 ∧ exRank2.data [0, 0] = 5 :=
  ⟨rfl, rfl, rfl⟩

/-- Amended claim C1: for every array whose rank is neither 3 nor 4,
`VAT._l2_normalize` silently returns the array unchanged (no error, no
normalization); only rank-3 and rank-4 arrays are normalized. -/
theorem l2_normalize_other_rank_silent (d : NDarray)
    (h4 : d.shape.length ≠ 4) (h3 : d.shape.length ≠ 3) : l2_normalize d = d := by
  unfold l2_normalize
  rw [if_neg h4, if_neg h3]

/-- Witness for the amended claim C1 at the concrete rank-5 array. -/
theorem l2_normalize_other_rank_silent_witness : l2_normalize exRank5 = exRank5 :=
  l2_normalize_other_rank_silent exRank5 (by decide) (by decide)

/-- Per-example L2 norms are square roots, hence non-negative. -/
theorem exNorm4_nonneg (d : NDarray) (i : Nat) : 0 ≤ exNorm4 d i := Real.sqrt_nonneg _

/-- Per-example L2 norms are square roots, hence non-negative (rank-3 case). -/
theorem exNorm3_nonneg (d : NDarray) (i : Nat) : 0 ≤ exNorm3 d i := Real.sqrt_nonneg _

/-- The additive guard is strictly positive. -/
theorem eps16_pos : 0 < eps16 := by norm_num [eps16]

/-- Dividing every entry of an array by a non-negative constant divides each
example's rank-4 L2 norm by that constant. -/
theorem exNorm4_div_const (d : NDarray) (c : ℝ) (hc : 0 ≤ c) (i : Nat) :
    exNorm4 ⟨d.shape, fun idx => d.data idx / c⟩ i = exNorm4 d i / c := by
  have hS : (0:ℝ) ≤ ∑ j ∈ Finset.range (d.shape.getD 1 0), ∑ k ∈ Finset.range (d.shape.getD 2 0),
      ∑ l ∈ Finset.range (d.shape.getD 3 0), d.data [i, j, k, l] ^ 2 :=
    Finset.sum_nonneg fun _ _ => Finset.sum_nonneg fun _ _ => Finset.sum_nonneg fun _ _ =>
      sq_nonneg _
  unfold exNorm4
  simp only [div_pow, ← Finset.sum_div]
  rw [Real.sqrt_div hS, Real.sqrt_sq hc]

/-- Dividing every entry of an array by a non-negative constant divides each
example's rank-3 L2 norm by that constant. -/
theorem exNorm3_div_const (d : NDarray) (c : ℝ) (hc : 0 ≤ c) (i : Nat) :
    exNorm3 ⟨d.shape, fun idx => d.data idx / c⟩ i = exNorm3 d i / c := by
  have hS : (0:ℝ) ≤ ∑ j ∈ Finset.range (d.shape.getD 1 0), ∑ k ∈ Finset.range (d.shape.getD 2 0),
      d.data [i, j, k] ^ 2 :=
    Finset.sum_nonneg fun _ _ => Finset.sum_nonneg fun _ _ => sq_nonneg _
  unfold exNorm3
  simp only [div_pow, ← Finset.sum_div]
  rw [Real.sqrt_div hS, Real.sqrt_sq hc]

/-- The ratio `n / (n + eps16)` for a positive `n` is at most 1 and within
`eps16 / n` of 1. -/
theorem guard_ratio_bounds (n : ℝ) (hn : 0 < n) :
    1 - eps16 / n ≤ n / (n + eps16) ∧ n / (n + eps16) ≤ 1 := by
  have he := eps16_pos
  have hpos : 0 < n + eps16 := by linarith
  constructor
  · have h1 : n / (n + eps16) = 1 - eps16 / (n + eps16) := by field_simp
    have h2 : eps16 / (n + eps16) ≤ eps16 / n :=
      div_le_div_of_nonneg_left (le_of_lt he) hn (by linarith)
    linarith
  · rw [div_le_one hpos]
    linarith

theorem exNorm4_l2_normalize (d : NDarray) (h4 : d.shape.length = 4) (i : Nat) :
    exNorm4 (l2_normalize d) i = exNorm4 d i / (exNorm4 d i + eps16) := by
  have hc : (0:ℝ) ≤ exNorm4 d i + eps16 := by
    have h1 := exNorm4_nonneg d i
    have h2 := eps16_pos
    linarith
  have key : exNorm4 (l2_normalize d) i
      = exNorm4 ⟨d.shape, fun idx => d.data idx / (exNorm4 d i + eps16)⟩ i := by
    unfold l2_normalize
    rw [if_pos h4]
    unfold exNorm4
    simp only [List.headD_cons]
  rw [key, exNorm4_div_const d _ hc i]

theorem exNorm3_l2_normalize (d : NDarray) (h3 : d.shape.length = 3) (i : Nat) :
    exNorm3 (l2_normalize d) i = exNorm3 d i / (exNorm3 d i + eps16) := by
  have hc : (0:ℝ) ≤ exNorm3 d i + eps16 := by
    have h1 := exNorm3_nonneg d i
    have h2 := eps16_pos
    linarith
  have h4 : d.shape.length ≠ 4 := by omega
  have key : exNorm3 (l2_normalize d) i
      = exNorm3 ⟨d.shape, fun idx => d.data idx / (exNorm3 d i + eps16)⟩ i := by
    unfold l2_normalize
    rw [if_neg h4, if_pos h3]
    unfold exNorm3
    simp only [List.headD_cons]
  rw [key, exNorm3_div_const d _ hc i]

/-- Claim C4: after `VAT._l2_normalize`, each example's L2 norm over the
non-batch dimensions of a rank-4 (resp. rank-3) array equals
`n / (n + 1e-16)` where `n` is the example's pre-normalization norm; hence it
is 0 for a zero example and within `1e-16 / n` of 1 for a nonzero example. -/
theorem l2_normalize_unit_norm (d : NDarray) (i : Nat) :
    (d.shape.length = 4 →
      exNorm4 (l2_normalize d) i = exNorm4 d i / (exNorm4 d i + eps16) ∧
      (exNorm4 d i = 0 → exNorm4 (l2_normalize d) i = 0) ∧
      (0 < exNorm4 d i →
        1 - eps16 / exNorm4 d i ≤ exNorm4 (l2_normalize d) i ∧
          exNorm4 (l2_normalize d) i ≤ 1)) ∧
    (d.shape.length = 3 →
      exNorm3 (l2_normalize d) i = exNorm3 d i / (exNorm3 d i + eps16) ∧
      (exNorm3 d i = 0 → exNorm3 (l2_normalize d) i = 0) ∧
      (0 < exNorm3 d i →
        1 - eps16 / exNorm3 d i ≤ exNorm3 (l2_normalize d) i ∧
          exNorm3 (l2_normalize d) i ≤ 1)) := by
  constructor
  · intro h4
    have hmain := exNorm4_l2_normalize d h4 i
    refine ⟨hmain, ?_, ?_⟩
    · intro h0
      rw [hmain, h0, zero_div]
    · intro hpos
      rw [hmain]
      exact guard_ratio_bounds _ hpos
  · intro h3
    have hmain := exNorm3_l2_normalize d h3 i
    refine ⟨hmain, ?_, ?_⟩
    · intro h0
      rw [hmain, h0, zero_div]
    · intro hpos
      rw [hmain]
      exact guard_ratio_bounds _ hpos

theorem exNorm4_exRank4 : exNorm4 exRank4 0 = 3 := by
  simp [exNorm4, exRank4]

/-- Witness for claim C4 at the concrete rank-4 array with single entry 3. -/
theorem l2_normalize_unit_norm_witness :
    exNorm4 (l2_normalize exRank4) 0 = exNorm4 exRank4 0 / (exNorm4 exRank4 0 + eps16) ∧
      exNorm4 (l2_normalize exRank4) 0 ≤ 1 := by
  have hmain := (l2_normalize_unit_norm exRank4 0).1 rfl
  refine ⟨hmain.1, ?_⟩
  exact (hmain.2.2 (by rw [exNorm4_exRank4]; norm_num)).2

/-- Claim C2: the warmup coefficient computed in `VAT.train_step` equals the
spec formula `clip(it / (unsup_warm_up * num_train_iter), 0, 1)` for every
iteration counter, and for `unsup_warm_up = 0.4`, `num_train_iter = 1000` it is
0 at iteration 0, exactly 1/2 at iteration 200, and exactly 1 for every
iteration at least 400. -/
theorem train_step_warmup_coefficient :
    (∀ (it num_train_iter : Nat) (uwu : ℝ),
      unsupWarmup it uwu num_train_iter = clipSpec ((it : ℝ) / (uwu * (num_train_iter : ℝ)))) ∧
    unsupWarmup 0 (2 / 5) 1000 = 0 ∧
    unsupWarmup 200 (2 / 5) 1000 = 1 / 2 ∧
    (∀ it : Nat, 400 ≤ it → unsupWarmup it (2 / 5) 1000 = 1) := by
  refine ⟨?_, ?_, ?_, ?_⟩
  · intro it nti uwu
    unfold unsupWarmup npClip clipSpec
    rw [min_max_distrib_right]
    norm_num
  · norm_num [unsupWarmup, npClip]
  · norm_num [unsupWarmup, npClip]
  · intro it hit
    have h400 : (400:ℝ) ≤ (it : ℝ) := by exact_mod_cast hit
    unfold unsupWarmup npClip
    push_cast
    have h1 : (1:ℝ) ≤ (it : ℝ) / (2 / 5 * 1000) := by
      rw [le_div_iff₀ (by norm_num)]
      linarith
    rw [max_eq_left (le_trans zero_le_one h1), min_eq_right h1]

/-- Witness for claim C2 at iteration 700 of 1000. -/
theorem train_step_warmup_coefficient_witness : unsupWarmup 700 (2 / 5) 1000 = 1 :=
  train_step_warmup_coefficient.2.2.2 700 (by norm_num)

/-- Claim C3: the total loss optimized by `VAT.train_step` equals
`sup_loss + lambda_u * vat_loss * warmup + lambda_ent * entropy_loss`, where the
entropy term is not scaled by the warmup coefficient. -/
theorem train_step_total_loss {Bl Bu C : Nat} (env : TrainStepEnv Bl Bu C) :
    (train_step env).total_loss =
      env.ce_loss_mean env.logits_x_lb env.y_lb +
        env.lambda_u * env.vat_loss_val * unsupWarmup env.it env.unsup_warm_up env.num_train_iter +
        env.lambda_ent * entropy_loss env.ul_y := rfl

theorem vatLoop_succ_outer {D P : Type} [Add P] [Zero P] (xn : D → D) (O : AutogradOracle D P)
    (n : Nat) (s : VatSearchState D P) :
    vatLoop xn O (n + 1) s = vatIter xn O (vatLoop xn O n s) := by
  induction n generalizing s with
  | zero => rfl
  | succ m ih =>
    rw [show vatLoop xn O (m + 1 + 1) s = vatLoop xn O (m + 1) (vatIter xn O s) from rfl, ih]
    rfl

/-- Claim C6: after each completed round of the VAT power iteration (any
`num_iters ≥ 1`), `d` has been replaced by the gradient of `delta_kl` with
respect to that round's probe perturbation (the previous value of `d` is
discarded), and the parameter gradients accumulated by the round's backward
pass have been cleared by `model.zero_grad()`. -/
theorem vat_power_iteration_frame {D P : Type} [Add P] [Zero P] (xn : D → D)
    (O : AutogradOracle D P) (numIters : Nat) (h1 : 1 ≤ numIters) (s : VatSearchState D P) :
    (vatLoop xn O numIters s).paramGrad = 0 ∧
    (vatLoop xn O numIters s).d = O.dGrad (xn (vatLoop xn O (numIters - 1) s).d) := by
  obtain ⟨m, rfl⟩ : ∃ m, numIters = m + 1 := ⟨numIters - 1, by omega⟩
  rw [Nat.add_sub_cancel, vatLoop_succ_outer]
  exact ⟨rfl, rfl⟩

/-- Witness for claim C6 with one round on integer scalars. -/
theorem vat_power_iteration_frame_witness :
    (vatLoop id oracleEx 1 stateEx).paramGrad = 0 ∧
    (vatLoop id oracleEx 1 stateEx).d = oracleEx.dGrad (id (vatLoop id oracleEx 0 stateEx).d) :=
  vat_power_iteration_frame id oracleEx 1 (by decide) stateEx

/-- Claim C7: when the iteration budget does not divide evenly by the epoch
count, `main` raises the divisibility configuration error as its first
statement, performing no effect at all — in particular no device or process
resource has been allocated. -/
theorem main_divisibility_check_first (args : TrainArgs) (savePathExists : Bool)
    (ngpusPerNode : Nat) (h : args.num_train_iter % args.epoch ≠ 0) :
    mainRun args savePathExists ngpusPerNode
      = ([], some (.iterNotDivisible args.num_train_iter args.epoch)) := by
  unfold mainRun
  rw [if_pos h]

/-- Witness for claim C7 at `num_train_iter = 100`, `epoch = 7`. -/
theorem main_divisibility_check_first_witness :
    mainRun { trainDefaultArgs with num_train_iter := 100, epoch := 7 } false 1
      = ([], some (.iterNotDivisible 100 7)) :=
  main_divisibility_check_first _ false 1 (by decide)

/-- Claim C8: when resume is requested, the checkpoint path exists, and loading
raises any exception, `main_worker` catches it, logs the failure, disables
resume (`args.resume = False`), and proceeds from iteration 0 instead of
aborting the process. -/
theorem resume_load_failure_degrades (loadPath msg : String) :
    resumeBlock true true loadPath (.error msg)
      = ⟨false, 0, [.failToResume loadPath]⟩ := rfl

/-- Claim C9, evaluated at a concrete distributed launch with a specific device
index (`ngpus_per_node = 2`, `batch_size = 8`, `num_workers = 4`, `uratio = 1`,
`eval_batch_size = 16`): the per-process batch size is divided (8 becomes 4) but
the loader worker counts are not — the labeled training loader receives 4
workers (not `4 / 2 = 2`) and the unlabeled one receives `2 * 4 = 8`. -/
theorem worker_count_not_divided :
    (workerLoaderSetup 8 4 1 16 true (some 0) 2).batchSizePerProc = 8 / 2 ∧
    (workerLoaderSetup 8 4 1 16 true (some 0) 2).train_lb.num_workers = 4 ∧
    (workerLoaderSetup 8 4 1 16 true (some 0) 2).train_ulb.num_workers = 2 * 4 ∧
    (workerLoaderSetup 8 4 1 16 true (some 0) 2).train_lb.num_workers ≠ 4 / 2 :=
  ⟨rfl, rfl, rfl, by decide⟩

/-- Claim C10: save-path handling of `main`.  (i) With the save path existing,
overwrite enabled and resume disabled, the very first effect is the recursive
deletion of the save directory.  (ii) With overwrite disabled, `main` raises
the already-existing-model error having performed no effect, so nothing is
deleted.  (iii) `train.py` declares `--overwrite` with default `True`; under
default arguments the already-existing error is unreachable for every
filesystem state, and an existing save directory is silently deleted before
training proceeds. -/
theorem main_save_path_handling :
    (∀ (args : TrainArgs) (n : Nat), args.num_train_iter % args.epoch = 0 →
      args.overwrite = true → args.resume = false →
      (mainRun args true n).1.head? = some (.rmtreeSavePath (savePath args))) ∧
    (∀ (args : TrainArgs) (n : Nat), args.num_train_iter % args.epoch = 0 →
      args.overwrite = false →
      mainRun args true n = ([], some (.alreadyExistingModel (savePath args)))) ∧
    trainDefaultArgs.overwrite = true ∧
    (∀ (fs : Bool) (n : Nat) (p : String),
      (mainRun trainDefaultArgs fs n).2 ≠ some (.alreadyExistingModel p)) ∧
    mainRun trainDefaultArgs true 1
      = ([.rmtreeSavePath (savePath trainDefaultArgs), .runWorker none], none) := by
  refine ⟨?_, ?_, rfl, ?_, rfl⟩
  · intro args n hdiv hov hres
    simp only [mainRun, hdiv, hov, hres]
    norm_num
    cases args.multiprocessing_distributed <;> simp
  · intro args n hdiv hov
    simp only [mainRun, hdiv, hov]
    norm_num
  · intro fs n p
    cases fs <;> simp [mainRun, trainDefaultArgs, savePath]

/-- Witness for claim C10 at the parser defaults (and the defaults with
overwrite disabled). -/
theorem main_save_path_handling_witness :
    (mainRun trainDefaultArgs true 1).1.head?
        = some (.rmtreeSavePath (savePath trainDefaultArgs)) ∧
    mainRun { trainDefaultArgs with overwrite := false } true 1
      = ([], some (.alreadyExistingModel
          (savePath { trainDefaultArgs with overwrite := false }))) :=
  ⟨main_save_path_handling.1 trainDefaultArgs 1 (by decide) rfl rfl,
   main_save_path_handling.2.1 _ 1 (by decide) rfl⟩

theorem sum_exp_pos {C : Nat} (hC : 0 < C) (x : Fin C → ℝ) : 0 < ∑ j, Real.exp (x j) :=
  have : Nonempty (Fin C) := ⟨⟨0, hC⟩⟩
  Finset.sum_pos (fun j _ => Real.exp_pos (x j)) Finset.univ_nonempty

theorem softmaxRow_pos {C : Nat} (hC : 0 < C) (x : Fin C → ℝ) (i : Fin C) :
    0 < softmaxRow x i :=
  div_pos (Real.exp_pos _) (sum_exp_pos hC x)

theorem sum_softmaxRow {C : Nat} (hC : 0 < C) (x : Fin C → ℝ) : ∑ i, softmaxRow x i = 1 := by
  unfold softmaxRow
  rw [← Finset.sum_div, div_self (ne_of_gt (sum_exp_pos hC x))]

theorem logSoftmaxRow_eq_log {C : Nat} (hC : 0 < C) (x : Fin C → ℝ) (i : Fin C) :
    logSoftmaxRow x i = Real.log (softmaxRow x i) := by
  unfold logSoftmaxRow softmaxRow
  rw [Real.log_div (ne_of_gt (Real.exp_pos _)) (ne_of_gt (sum_exp_pos hC x)), Real.log_exp]

theorem gibbs_row {C : Nat} (q p : Fin C → ℝ) (hq : ∀ i, 0 < q i) (hp : ∀ i, 0 < p i)
    (hq1 : ∑ i, q i = 1) (hp1 : ∑ i, p i = 1) :
    ∑ i, q i * Real.log (p i) ≤ ∑ i, q i * Real.log (q i) := by
  have key : ∀ i ∈ Finset.univ (α := Fin C),
      q i * Real.log (p i) - q i * Real.log (q i) ≤ p i - q i := by
    intro i _
    have hpq : 0 < p i / q i := div_pos (hp i) (hq i)
    have h1 : Real.log (p i / q i) ≤ p i / q i - 1 := Real.log_le_sub_one_of_pos hpq
    have h2 : Real.log (p i / q i) = Real.log (p i) - Real.log (q i) :=
      Real.log_div (ne_of_gt (hp i)) (ne_of_gt (hq i))
    have h3 := mul_le_mul_of_nonneg_left h1 (le_of_lt (hq i))
    rw [h2, mul_sub] at h3
    have h4 : q i * (p i / q i - 1) = p i - q i := by
      rw [mul_sub, mul_one, mul_comm (q i) _, div_mul_cancel₀ _ (ne_of_gt (hq i))]
    linarith
  have hsum := Finset.sum_le_sum key
  rw [Finset.sum_sub_distrib, Finset.sum_sub_distrib, hq1, hp1, sub_self] at hsum
  linarith

theorem rowKL_nonneg {C : Nat} (a b : Fin C → ℝ) :
    ∑ i, softmaxRow a i * logSoftmaxRow b i ≤ ∑ i, softmaxRow a i * logSoftmaxRow a i := by
  rcases Nat.eq_zero_or_pos C with hC | hC
  · subst hC
    rw [Finset.univ_eq_empty, Finset.sum_empty, Finset.sum_empty]
  · simp only [logSoftmaxRow_eq_log hC]
    exact gibbs_row _ _ (softmaxRow_pos hC a) (softmaxRow_pos hC b)
      (sum_softmaxRow hC a) (sum_softmaxRow hC b)

theorem kl_nonneg {B C : Nat} (q p : Fin B → Fin C → ℝ) : 0 ≤ kl_div_with_logit q p := by
  unfold kl_div_with_logit
  rw [div_sub_div_same]
  apply div_nonneg
  · rw [← Finset.sum_sub_distrib]
    apply Finset.sum_nonneg
    intro b _
    have := rowKL_nonneg (q b) (p b)
    linarith
  · exact Nat.cast_nonneg B

theorem kl_self {B C : Nat} (q : Fin B → Fin C → ℝ) : kl_div_with_logit q q = 0 := by
  unfold kl_div_with_logit
  rw [sub_self]

theorem log_four : Real.log 4 = 2 * Real.log 2 := by
  rw [show (4:ℝ) = 2 ^ 2 by norm_num, Real.log_pow]
  norm_num

theorem kl_qp_value : kl_div_with_logit qEx pEx = Real.log 2 - Real.log 3 / 2 := by
  have h3 : Real.exp (Real.log 3) = 3 := Real.exp_log (by norm_num)
  unfold kl_div_with_logit softmaxRow logSoftmaxRow qEx pEx
  simp [Fin.sum_univ_two, Fin.sum_univ_one, Real.exp_zero, h3]
  norm_num
  rw [log_four]
  ring

theorem kl_pq_value : kl_div_with_logit pEx qEx = Real.log 3 * (3 / 4) - Real.log 2 := by
  have h3 : Real.exp (Real.log 3) = 3 := Real.exp_log (by norm_num)
  unfold kl_div_with_logit softmaxRow logSoftmaxRow qEx pEx
  simp [Fin.sum_univ_two, Fin.sum_univ_one, Real.exp_zero, h3]
  norm_num
  rw [log_four]
  ring

/-- Claim C5: `kl_div_with_logit` is non-negative for every pair of equal-shape
logit batches, equals 0 when the two arguments coincide, and is directional:
on the concrete pair `qEx`, `pEx` swapping the arguments changes the value. -/
theorem kl_div_with_logit_props :
    (∀ (B C : Nat) (q_logit p_logit : Fin B → Fin C → ℝ),
      0 ≤ kl_div_with_logit q_logit p_logit) ∧
    (∀ (B C : Nat) (q_logit : Fin B → Fin C → ℝ), kl_div_with_logit q_logit q_logit = 0) ∧
    kl_div_with_logit qEx pEx ≠ kl_div_with_logit pEx qEx := by
  refine ⟨fun B C q p => kl_nonneg q p, fun B C q => kl_self q, ?_⟩
  rw [kl_qp_value, kl_pq_value]
  have h256 : Real.log 256 = 8 * Real.log 2 := by
    rw [show (256:ℝ) = 2 ^ 8 by norm_num, Real.log_pow]
    norm_num
  have h243 : Real.log 243 = 5 * Real.log 3 := by
    rw [show (243:ℝ) = 3 ^ 5 by norm_num, Real.log_pow]
    norm_num
  have hlt : Real.log 243 < Real.log 256 := Real.log_lt_log (by norm_num) (by norm_num)
  intro heq
  linarith
